import Mathlib

/-!
Verification development for the SEC filing extraction engine
(`extract_trade_data.py`): a shallow embedding of the two document
parsers (`parse_form4` for Form-4 XML fragments, `parse_13g_13d` for
13D/13G HTML tables) and of the form-type dispatcher in
`download_and_extract_trades`, together with theorems settling the
frozen specification claims.

Modelling conventions:
* Python strings are Lean `String`s (ASCII character classes are used
  for the `\d`, `\s`, `\w`, `[A-Z]` regex classes, matching the ASCII
  documents the tool processes).
* Python `float` values are modelled as `ℚ`; the behaviour of
  `float(...)` on a string is abstracted as a parameter
  `pf : String → Option ℚ` (`none` models `ValueError`), so theorems
  hold for every numeric-parsing behaviour.  A concrete decimal parser
  `parseDec` instantiates it in witnesses.
* `xml.etree.ElementTree` documents are modelled by the inductive
  `Xml`; `ET.fromstring` is abstracted as a parameter
  `px : String → Option Xml` (`none` models `ParseError`).
* `BeautifulSoup` documents are modelled by `Html13Doc`: the list of
  tables (each a list of rows, each a list of cells carrying their
  `get_text()` result) plus the four whole-text regex scans
  (`CUSIP`, security-name, and the two fallback scans), which no claim
  constrains and which are therefore carried as abstract scan results.
* The specific regular expressions that the claims do constrain
  (`^(\d+)\.`, `([\d,]+)`, `(\d+\.?\d*)\s*%`, `\b([A-Z]{2,3})\b`) are
  embedded as executable functions reproducing `re.search` semantics
  (leftmost match, greedy with the backtracking behaviour these
  particular patterns allow).
-/

/-! ## Generic text utilities -/

/-- ASCII whitespace, the characters stripped by Python `str.strip()`
and matched by the regex class `\s` on the ASCII plane. -/
def isPyWs (c : Char) : Bool :=
  c = ' ' || c = '\t' || c = '\n' || c = '\r' || c = Char.ofNat 11 || c = Char.ofNat 12

/-- Python `str.strip()`: remove leading and trailing whitespace. -/
def pyStrip (s : String) : String :=
  String.mk (((s.data.dropWhile isPyWs).reverse.dropWhile isPyWs).reverse)

/-- Numeric value of a digit string, as Python `int` reads it. -/
def natOfDigits (ds : List Char) : Nat :=
  ds.foldl (fun n c => 10 * n + (c.toNat - Char.toNat (Char.ofNat 48))) 0

/-- Python `str.replace(',', '')`. -/
def stripCommas (s : String) : String :=
  String.mk (s.data.filter (fun c => c ≠ ','))

/-- Index of the first occurrence of `pat` in `cs` (Python `str.find`,
with `none` standing for the `-1` "not found" result). -/
def strFind (pat : List Char) : List Char → Option Nat
  | [] => if pat.isEmpty then some 0 else none
  | a :: as =>
    if pat.isPrefixOf (a :: as) then some 0
    else (strFind pat as).map (· + 1)

/-- Python `pat in s` substring test. -/
def hasSub (s pat : String) : Bool :=
  (strFind pat.data s.data).isSome

/-- Python slice `s[a:b]` on a character list (for `0 ≤ a, b`). -/
def sliceList (cs : List Char) (a b : Nat) : List Char :=
  (cs.take b).drop a

theorem mem_of_mem_dropWhile {p : Char → Bool} {x : Char} :
    ∀ {l : List Char}, x ∈ l.dropWhile p → x ∈ l := by
  intro l
  induction l with
  | nil => intro h; simp [List.dropWhile] at h
  | cons a t ih =>
    intro h
    by_cases hp : p a
    · simp [List.dropWhile, hp] at h
      exact List.mem_cons_of_mem a (ih h)
    · simpa [List.dropWhile, hp] using h

theorem mem_of_mem_drop {x : Char} :
    ∀ (n : Nat) {l : List Char}, x ∈ l.drop n → x ∈ l := by
  intro n
  induction n with
  | zero => intro l h; simpa using h
  | succ k ih =>
    intro l h
    cases l with
    | nil => simp at h
    | cons a t =>
      simp only [List.drop_succ_cons] at h
      exact List.mem_cons_of_mem a (ih h)

/-! ## XML document model (for `xml.etree.ElementTree`) -/

mutual
/-- An XML element: tag, text content (`Element.text`, which Python
reports as `None` for an empty element), children.  The children are a
bespoke list type (`XmlForest`) so that the document-order search
below is structurally recursive (and hence evaluates by kernel
reduction). -/
inductive Xml where
  | node (tag : String) (text : Option String) (children : XmlForest)
/-- A list of XML elements (children of one element). -/
inductive XmlForest where
  | nil
  | cons (x : Xml) (xs : XmlForest)
end

def Xml.tag : Xml → String
  | .node t _ _ => t

def Xml.text : Xml → Option String
  | .node _ tx _ => tx

def Xml.children : Xml → XmlForest
  | .node _ _ ch => ch

/-- Build a forest from a list of trees (for document literals). -/
def forestOf : List Xml → XmlForest
  | [] => .nil
  | x :: xs => .cons x (forestOf xs)

/-- Element constructor taking an ordinary list of children. -/
def Xml.el (tag : String) (text : Option String) (children : List Xml) : Xml :=
  .node tag text (forestOf children)

/-- First element with tag `t` in a forest, in document (preorder)
order; the search model of `Element.find('.//t')` restricted to the
trees of the forest. -/
def findInForest (t : String) : XmlForest → Option Xml
  | .nil => none
  | .cons (Xml.node tg tx ch) rest =>
    if tg = t then some (Xml.node tg tx ch)
    else
      match findInForest t ch with
      | some r => some r
      | none => findInForest t rest

/-- `elem.find('.//t')`: first descendant of `elem` (excluding `elem`
itself) with tag `t`, in document order. -/
def Xml.findDesc (e : Xml) (t : String) : Option Xml :=
  findInForest t e.children

/-! ## Form 4 transaction extraction (`SECFilingParser.parse_form4`) -/

/-- The nine-field result dictionary of `parse_form4`. -/
structure Form4Result where
  Transaction_Code : Option String
  Transaction_Date : Option String
  Shares_Acquired : Option ℚ
  Shares_Disposed : Option ℚ
  Price_Per_Share : Option String
  Security_Name : Option String
  Transaction_Type : Option String
  Total_Value : Option ℚ
  Shares_Owned_Following : Option String
deriving Repr, DecidableEq

/-- The initial all-`None` result dictionary. -/
def emptyForm4 : Form4Result :=
  ⟨none, none, none, none, none, none, none, none, none⟩

/-- The `code_map` dictionary literal of `parse_form4`, as an
association list in source order (`dict.get` is `List.lookup`). -/
def code_map : List (String × String) :=
  [("P", "Purchase"),
   ("S", "Sale"),
   ("A", "Grant/Award"),
   ("D", "Disposition"),
   ("F", "Payment of exercise price"),
   ("I", "Discretionary transaction"),
   ("M", "Exercise or conversion"),
   ("C", "Conversion"),
   ("E", "Expiration of short derivative position"),
   ("H", "Expiration of long derivative position"),
   ("O", "Transfer Out"),
   ("X", "Exercise of out-of-the-money derivative"),
   ("G", "Bona fide gift"),
   ("W", "Acquisition or disposition by will"),
   ("L", "Small acquisition"),
   ("Z", "Deposit into or withdrawal from voting trust")]

/-- The acquisition-code fallback list `['P', 'A', 'M', 'C', 'I', 'L']`. -/
def acquisitionCodes : List String := ["P", "A", "M", "C", "I", "L"]

/-- The disposition-code fallback list `['S', 'D', 'F', 'O']`. -/
def dispositionCodes : List String := ["S", "D", "F", "O"]

/-- Python truthiness of an optional string (`None` and `''` falsy). -/
def truthyS : Option String → Bool
  | none => false
  | some s => s ≠ ""

/-- Python truthiness of an optional float (`None` and `0.0` falsy). -/
def truthyQ : Option ℚ → Bool
  | none => false
  | some q => q ≠ 0

/-- `if x is not None and x.text:` guard: keep a string only when it is
present and non-empty. -/
def optTruthy : Option String → Option String
  | none => none
  | some s => if s = "" then none else some s

/-- All the sub-element lookups that the `parse_form4` body performs on
the first `nonDerivativeTransaction` element: the extraction result is
a function of this view alone.  `ad` is
`transactionAcquiredDisposedCode` element? → `value` child? → its text. -/
structure TransView where
  code : Option String
  dateTxt : Option String
  sharesTxt : Option String
  ad : Option (Option (Option String))
  priceTxt : Option String
  postTxt : Option String
  secTxt : Option String
deriving Repr, DecidableEq

/-- Perform the sub-element lookups of `parse_form4` on a transaction
element (`find('.//...')` chains followed by `.text`). -/
def viewOf (trans : Xml) : TransView :=
  { code := (trans.findDesc "transactionCode").bind Xml.text
    dateTxt := ((trans.findDesc "transactionDate").bind
      (fun e => e.findDesc "value")).bind Xml.text
    sharesTxt := ((trans.findDesc "transactionShares").bind
      (fun e => e.findDesc "value")).bind Xml.text
    ad := (trans.findDesc "transactionAcquiredDisposedCode").map
      (fun e => (e.findDesc "value").map Xml.text)
    priceTxt := ((trans.findDesc "transactionPricePerShare").bind
      (fun e => e.findDesc "value")).bind Xml.text
    postTxt := (((trans.findDesc "postTransactionAmounts").bind
      (fun e => e.findDesc "sharesOwnedFollowingTransaction")).bind
      (fun e => e.findDesc "value")).bind Xml.text
    secTxt := ((trans.findDesc "securityTitle").bind
      (fun e => e.findDesc "value")).bind Xml.text }

/-- Acquired/disposed routing of the parsed share count: by the
explicit `transactionAcquiredDisposedCode` value when that element is
present, else (`elif`) by transaction-code membership in the
acquisition/disposition lists. -/
def routeShares (sh : Option ℚ) (ad : Option (Option (Option String)))
    (code : Option String) : Option ℚ × Option ℚ :=
  match sh with
  | none => (none, none)
  | some q =>
    match ad with
    | some adv =>
      match adv with
      | some txt =>
        if txt = some "A" then (some q, none)
        else if txt = some "D" then (none, some q)
        else (none, none)
      | none => (none, none)
    | none =>
      match code with
      | some c =>
        if c ∈ acquisitionCodes then (some q, none)
        else if c ∈ dispositionCodes then (none, some q)
        else (none, none)
      | none => (none, none)

/-- The `Total_Value` computation: `if Shares_Acquired and Price: ...
elif Shares_Disposed and Price: ...`, with `float(price)` failure
(`pf = none`) leaving the value absent. -/
def totalProduct (pf : String → Option ℚ) (sh : Option ℚ)
    (pr : Option String) : Option ℚ :=
  match sh, pr with
  | some q, some ps => (pf ps).map (fun p => q * p)
  | _, _ => none

def totalValueCalc (pf : String → Option ℚ) (acq disp : Option ℚ)
    (pr : Option String) : Option ℚ :=
  if truthyQ acq && truthyS pr then totalProduct pf acq pr
  else if truthyQ disp && truthyS pr then totalProduct pf disp pr
  else none

/-- The parsed share count: `float(shares_val.text.replace(',', ''))`
under the `if shares_val is not None and shares_val.text:` guard. -/
def sharesNumOf (pf : String → Option ℚ) (v : TransView) : Option ℚ :=
  match v.sharesTxt with
  | some st => if st = "" then none else pf (stripCommas st)
  | none => none

/-- The field computations of the `parse_form4` body, as a function of
the sub-element view.  `pf` models Python `float` parsing. -/
def computeForm4 (pf : String → Option ℚ) (v : TransView) : Form4Result :=
  let routed := routeShares (sharesNumOf pf v) v.ad v.code
  let price := optTruthy v.priceTxt
  { Transaction_Code := v.code
    Transaction_Type := v.code.map (fun c => (List.lookup c code_map).getD c)
    Transaction_Date := optTruthy v.dateTxt
    Shares_Acquired := routed.1
    Shares_Disposed := routed.2
    Price_Per_Share := price
    Security_Name := optTruthy v.secTxt
    Total_Value := totalValueCalc pf routed.1 routed.2 price
    Shares_Owned_Following := optTruthy v.postTxt }

/-- Extraction from a parsed XML root: take the first
`nonDerivativeTransaction` (the `findall(...)[0]` of the source) and
compute the fields; no transaction leaves the all-`None` record. -/
def extractForm4 (pf : String → Option ℚ) (root : Xml) : Form4Result :=
  match root.findDesc "nonDerivativeTransaction" with
  | none => emptyForm4
  | some tr => computeForm4 pf (viewOf tr)

/-- `SECFilingParser.parse_form4`: locate the `<XML>`/`</XML>` markers
with `str.find`; if either is missing return the all-`None` record;
otherwise parse the stripped slice between them (`px` models
`ET.fromstring`, `none` a `ParseError`, which also yields the
all-`None` record) and extract. -/
def parse_form4 (px : String → Option Xml) (pf : String → Option ℚ)
    (content : String) : Form4Result :=
  match strFind "<XML>".data content.data,
        strFind "</XML>".data content.data with
  | some i, some j =>
    match px (pyStrip (String.mk (sliceList content.data (i + 5) j))) with
    | some root => extractForm4 pf root
    | none => emptyForm4
  | _, _ => emptyForm4

/-- Concrete decimal parser used to instantiate `pf` in witnesses:
`digits` or `digits.digits`, as Python `float` reads such strings. -/
def parseDec (s : String) : Option ℚ :=
  let cs := s.data
  let d1 := cs.takeWhile Char.isDigit
  if d1.isEmpty then none
  else
    match cs.dropWhile Char.isDigit with
    | [] => some (mkRat (natOfDigits d1) 1)
    | '.' :: fr =>
      if !fr.isEmpty && fr.all Char.isDigit then
        some (mkRat (natOfDigits d1 * 10 ^ fr.length + natOfDigits fr) (10 ^ fr.length))
      else none
    | _ => none

example : parseDec "100" = some 100 := by decide
example : parseDec "1.5" = some (mkRat 3 2) := by decide
example : parseDec "abc" = none := by decide
example : parseDec "" = none := by decide

/-! ## 13D/13G ownership extraction (`SECFilingParser.parse_13g_13d`) -/

/-- The nine-field result dictionary of `parse_13g_13d`. -/
structure OwnershipRecord where
  Shares_Owned : Option String
  Percent_of_Class : Option String
  Sole_Voting_Power : Option String
  Shared_Voting_Power : Option String
  Sole_Dispositive_Power : Option String
  Shared_Dispositive_Power : Option String
  CUSIP : Option String
  Security_Name : Option String
  Type_of_Reporting_Person : Option String
deriving Repr, DecidableEq

/-- The initial all-`None` ownership dictionary. -/
def emptyOwnership : OwnershipRecord :=
  ⟨none, none, none, none, none, none, none, none, none⟩

/-- A table cell, carrying its `get_text()` result. -/
structure Cell where
  text : String
deriving Repr, DecidableEq

/-- `re.search(r'([\d,]+)', ...)`: first maximal run of digits and
commas (leftmost position, greedy, nothing follows the group). -/
def firstNumRun : List Char → Option (List Char)
  | [] => none
  | c :: rest =>
    if c.isDigit || c = ',' then
      some ((c :: rest).takeWhile (fun d => d.isDigit || d = ','))
    else firstNumRun rest

/-- The count normaliser of the table branches: replace the literal
placeholder `-0-` by `0` (Python `str.replace`, left-to-right and
non-overlapping), take the first digit-and-comma run, strip commas. -/
def replaceZeroPlaceholder : List Char → List Char
  | '-' :: '0' :: '-' :: rest => '0' :: replaceZeroPlaceholder rest
  | c :: rest => c :: replaceZeroPlaceholder rest
  | [] => []

def extract_leading_number (s : String) : Option String :=
  (firstNumRun (replaceZeroPlaceholder s.data)).map
    (fun run => String.mk (run.filter (fun c => c ≠ ',')))

/-- Match of `(\d+\.?\d*)\s*%` at one position: nonempty digit run,
optional dot with a further digit run, whitespace, then `%`.  For this
pattern the greedy reading is exact: every backtracking alternative of
`re` fails, since shortening any of the starred parts leaves a digit,
dot or whitespace character where `%` is required. -/
def pctFinish (tok rest : List Char) : Option String :=
  match rest.dropWhile isPyWs with
  | '%' :: _ => some (String.mk tok)
  | _ => none

def pctTokAt (cs : List Char) : Option String :=
  match cs.takeWhile Char.isDigit, cs.dropWhile Char.isDigit with
  | [], _ => none
  | d1, '.' :: rs => pctFinish (d1 ++ '.' :: rs.takeWhile Char.isDigit) (rs.dropWhile Char.isDigit)
  | d1, r1 => pctFinish d1 r1

/-- `re.search` position scan for the percentage pattern: try every
position left to right, first success wins. -/
def pctSearch : List Char → Option String
  | [] => none
  | c :: rest =>
    match pctTokAt (c :: rest) with
    | some t => some t
    | none => pctSearch rest

/-- The percent extractor of the row branches:
`re.search(r'(\d+\.?\d*)\s*%', value_text)`, group 1. -/
def extract_percentage (s : String) : Option String :=
  pctSearch s.data

/-- The regex class `[A-Z]`. -/
def isUpperAZ (c : Char) : Bool :=
  Char.ofNat 65 ≤ c && c ≤ Char.ofNat 90

/-- The regex word class `\w` (ASCII plane). -/
def isWordCh (c : Char) : Bool :=
  c.isAlphanum || c = Char.ofNat 95

/-- Match of `\b([A-Z]{2,3})\b` at one position whose preceding
character is already known to be a non-word boundary: two or three
uppercase letters followed by a word boundary.  Greedy `{2,3}` with
its single backtracking step is reproduced exactly: when three
uppercase letters are available but not followed by a boundary, the
two-letter alternative also fails because the third letter is a word
character. -/
def typeTokAt : List Char → Option String
  | a :: b :: rest =>
    if isUpperAZ a && isUpperAZ b then
      match rest with
      | [] => some (String.mk [a, b])
      | c :: rest2 =>
        if isUpperAZ c then
          match rest2 with
          | [] => some (String.mk [a, b, c])
          | d :: _ => if isWordCh d then none else some (String.mk [a, b, c])
        else if isWordCh c then none else some (String.mk [a, b])
    else none
  | _ => none

/-- `re.search` position scan for `\b([A-Z]{2,3})\b`: a position is
eligible when the previous character (if any) is a non-word character,
which is the only way the leading `\b` can hold before an uppercase
letter. -/
def typeSearch : Option Char → List Char → Option String
  | prev, c :: rest =>
    match (if prev.all (fun p => !isWordCh p) then typeTokAt (c :: rest) else none) with
    | some t => some t
    | none => typeSearch (some c) rest
  | _, [] => none

/-- The reporting-person-type extractor of the row-12 branch:
`re.search(r'\b([A-Z]{2,3})\b', value_text)`, group 1. -/
def extract_reporting_type (s : String) : Option String :=
  typeSearch none s.data

/-- `re.search(r'^(\d+)\.', first_cell_text)`: leading digit run
followed by a literal dot, read as an integer (the anchored `^`
restricts the search to position 0). -/
def rowNumOf (s : String) : Option Nat :=
  let ds := s.data.takeWhile Char.isDigit
  if ds.isEmpty then none
  else
    match s.data.dropWhile Char.isDigit with
    | '.' :: _ => some (natOfDigits ds)
    | _ => none

def firstCellText (cells : List Cell) : String :=
  match cells with
  | [] => ""
  | c :: _ => c.text

def lastCellText (cells : List Cell) : String :=
  match cells.getLast? with
  | some c => c.text
  | none => ""

/-- `' '.join([cell.get_text() for cell in cells])`. -/
def rowTextOf (cells : List Cell) : String :=
  String.intercalate " " (cells.map Cell.text)

/-- `result[field] = match.group(...)` under `if match:`: overwrite on
success, keep the previous value on failure. -/
def updField (old newv : Option String) : Option String :=
  match newv with
  | some v => some v
  | none => old

/-- The body of the per-row loop of `parse_13g_13d` for a row whose
leading row number parsed as `n`: the `if row_num == …` / label
co-occurrence chain, in source order. -/
def processNumberedRow (r : OwnershipRecord) (n : Nat) (rowText vt : String) :
    OwnershipRecord :=
  if n = 7 ∧ hasSub rowText "Sole Voting Power" then
    { r with Sole_Voting_Power := updField r.Sole_Voting_Power (extract_leading_number vt) }
  else if n = 8 ∧ hasSub rowText "Shared Voting Power" then
    { r with Shared_Voting_Power := updField r.Shared_Voting_Power (extract_leading_number vt) }
  else if n = 9 then
    (if hasSub rowText "Sole Dispositive Power" then
      { r with Sole_Dispositive_Power :=
          updField r.Sole_Dispositive_Power (extract_leading_number vt) }
    else if hasSub rowText "Aggregate Amount Beneficially Owned" then
      { r with Shares_Owned := updField r.Shares_Owned (extract_leading_number vt) }
    else r)
  else if n = 10 ∧ hasSub rowText "Shared Dispositive Power" then
    { r with Shared_Dispositive_Power :=
        updField r.Shared_Dispositive_Power (extract_leading_number vt) }
  else if n = 11 ∧ hasSub rowText "Aggregate Amount Beneficially Owned" then
    { r with Shares_Owned := updField r.Shares_Owned (extract_leading_number vt) }
  else if n = 11 ∧ hasSub rowText "Percent of Class" then
    { r with Percent_of_Class := updField r.Percent_of_Class (extract_percentage vt) }
  else if n = 13 ∧ hasSub rowText "Percent of Class" then
    { r with Percent_of_Class := updField r.Percent_of_Class (extract_percentage vt) }
  else if n = 12 ∧ hasSub rowText "Type of Reporting Person" then
    { r with Type_of_Reporting_Person :=
        updField r.Type_of_Reporting_Person (extract_reporting_type vt) }
  else r

/-- One iteration of the row loop: skip rows with fewer than two
cells, extract the row number from the stripped first cell (skip on
failure), then dispatch on row number and label text.  The row text is
the space-join of all unstripped cell texts; the value text is the
stripped last cell. -/
def processRow (r : OwnershipRecord) (cells : List Cell) : OwnershipRecord :=
  if cells.length < 2 then r
  else
    match rowNumOf (pyStrip (firstCellText cells)) with
    | none => r
    | some n => processNumberedRow r n (rowTextOf cells) (pyStrip (lastCellText cells))

/-- The four whole-text regex scans of `parse_13g_13d` over
`soup.get_text()`.  No claim constrains these patterns, so their
results are carried abstractly: `cusip` and `secName` are the two
always-attempted scans, `aggOwned` and `pctClass` the two fallback
scans for `Shares_Owned` and `Percent_of_Class`. -/
structure TextScan where
  cusip : Option String
  secName : Option String
  aggOwned : Option String
  pctClass : Option String
deriving Repr, DecidableEq

/-- A parsed 13D/13G document: every table (list of rows, each a list
of cells), plus the whole-text scan results. -/
structure Html13Doc where
  tables : List (List (List Cell))
  scan : TextScan
deriving Repr, DecidableEq

/-- `SECFilingParser.parse_13g_13d`: seed `CUSIP` and `Security_Name`
from the whole-text scans, fold the row loop over every table, then
run the two fallback scans when `Shares_Owned` / `Percent_of_Class`
are still falsy (Python truthiness: `None` or the empty string). -/
def parse_13g_13d (doc : Html13Doc) : OwnershipRecord :=
  let r0 : OwnershipRecord :=
    { emptyOwnership with CUSIP := doc.scan.cusip, Security_Name := doc.scan.secName }
  let r1 := doc.tables.foldl (fun r tbl => tbl.foldl processRow r) r0
  let r2 :=
    if truthyS r1.Shares_Owned then r1
    else { r1 with Shares_Owned := updField r1.Shares_Owned doc.scan.aggOwned }
  if truthyS r2.Percent_of_Class then r2
  else { r2 with Percent_of_Class := updField r2.Percent_of_Class doc.scan.pctClass }

/-! ## Form-type dispatch (`download_and_extract_trades`) -/

/-- A cell value written into the destination tabular row. -/
inductive ColVal where
  | s (v : String)
  | q (v : ℚ)
deriving Repr, DecidableEq

/-- `parsed.items()` for a Form-4 record, in dictionary insertion
order. -/
def form4Items (r : Form4Result) : List (String × Option ColVal) :=
  [("Transaction_Code", r.Transaction_Code.map ColVal.s),
   ("Transaction_Date", r.Transaction_Date.map ColVal.s),
   ("Shares_Acquired", r.Shares_Acquired.map ColVal.q),
   ("Shares_Disposed", r.Shares_Disposed.map ColVal.q),
   ("Price_Per_Share", r.Price_Per_Share.map ColVal.s),
   ("Security_Name", r.Security_Name.map ColVal.s),
   ("Transaction_Type", r.Transaction_Type.map ColVal.s),
   ("Total_Value", r.Total_Value.map ColVal.q),
   ("Shares_Owned_Following", r.Shares_Owned_Following.map ColVal.s)]

/-- `parsed.items()` for a 13D/13G record, in dictionary insertion
order. -/
def ownershipItems (r : OwnershipRecord) : List (String × Option ColVal) :=
  [("Shares_Owned", r.Shares_Owned.map ColVal.s),
   ("Percent_of_Class", r.Percent_of_Class.map ColVal.s),
   ("Sole_Voting_Power", r.Sole_Voting_Power.map ColVal.s),
   ("Shared_Voting_Power", r.Shared_Voting_Power.map ColVal.s),
   ("Sole_Dispositive_Power", r.Sole_Dispositive_Power.map ColVal.s),
   ("Shared_Dispositive_Power", r.Shared_Dispositive_Power.map ColVal.s),
   ("CUSIP", r.CUSIP.map ColVal.s),
   ("Security_Name", r.Security_Name.map ColVal.s),
   ("Type_of_Reporting_Person", r.Type_of_Reporting_Person.map ColVal.s)]

/-- `for key, value in parsed.items(): if key in df.columns:
df.at[idx, key] = value` — write each extracted field (including
`None`s) into the destination row, but only at existing columns. -/
def writeItems (cols : List String) (items : List (String × Option ColVal))
    (row : String → Option ColVal) : String → Option ColVal :=
  items.foldl
    (fun rw it =>
      if it.1 ∈ cols then (fun c => if c = it.1 then it.2 else rw c) else rw)
    row

/-- The enumerated 13D/13G form-type list of the dispatcher. -/
def form13Types : List String :=
  ["13G", "13G/A", "13D", "13D/A", "SC 13G", "SC 13G/A", "SC 13D", "SC 13D/A"]

/-- The per-row dispatch of `download_and_extract_trades`: form type
`"4"` invokes the Form-4 parser, a form type in the enumerated 13D/13G
set invokes the ownership parser, anything else leaves the destination
row untouched.  `soup` models the BeautifulSoup parse of the document
text. -/
def dispatchStep (px : String → Option Xml) (pf : String → Option ℚ)
    (soup : String → Html13Doc) (cols : List String)
    (formType content : String) (row : String → Option ColVal) :
    String → Option ColVal :=
  if formType = "4" then
    writeItems cols (form4Items (parse_form4 px pf content)) row
  else if formType ∈ form13Types then
    writeItems cols (ownershipItems (parse_13g_13d (soup content))) row
  else row

example : extract_leading_number "-0-" = some "0" := by decide
example : extract_leading_number "1,234,567 (1)" = some "1234567" := by decide
example : extract_leading_number "abc, 123" = some "" := by decide
example : extract_leading_number "no digits" = none := by decide
example : extract_percentage "6.1%" = some "6.1" := by decide
example : extract_percentage "about 7.94 %" = some "7.94" := by decide
example : extract_percentage "12" = none := by decide
example : extract_percentage "12.34.56%" = some "34.56" := by decide
example : extract_percentage "12.%" = some "12." := by decide
example : extract_percentage "12 x 3%" = some "3" := by decide
example : extract_percentage "1 2%" = some "2" := by decide
example : extract_reporting_type "IN (Individual)" = some "IN" := by decide
example : extract_reporting_type "ABCD" = none := by decide
example : extract_reporting_type "HC/IN" = some "HC" := by decide
example : extract_reporting_type "xIN YZ" = some "YZ" := by decide
example : extract_reporting_type "AB1" = none := by decide
example : rowNumOf "9. " = some 9 := by decide
example : rowNumOf "9" = none := by decide
example : rowNumOf "09." = some 9 := by decide

/-! ## Concrete documents used in witnesses and counterexamples -/

/-- A well-formed first transaction: code `P`, 100 shares at price 2,
no explicit acquired/disposed indicator. -/
def form4TransP : Xml :=
  .el "nonDerivativeTransaction" none
    [.el "transactionCoding" none [.el "transactionCode" (some "P") []],
     .el "transactionAmounts" none
       [.el "transactionShares" none [.el "value" (some "100") []],
        .el "transactionPricePerShare" none [.el "value" (some "2") []]]]

/-- A Form-4 XML root containing `form4TransP`. -/
def form4DocA : Xml := .el "ownershipDocument" none [form4TransP]

example : (extractForm4 parseDec form4DocA).Transaction_Code = some "P" := by decide
example : (extractForm4 parseDec form4DocA).Shares_Acquired = some 100 := by decide
example : (extractForm4 parseDec form4DocA).Total_Value = some 200 := by
  with_unfolding_all decide

/-! ## Supporting lemmas -/

theorem lookupStr_isSome_iff {c : String} :
    ∀ {l : List (String × String)}, (List.lookup c l).isSome ↔ c ∈ l.map Prod.fst := by
  intro l
  induction l with
  | nil => simp [List.lookup]
  | cons p t ih =>
    obtain ⟨a, b⟩ := p
    by_cases hc : c = a
    · subst hc; simp [List.lookup]
    · have hb : (c == a) = false := by simp [hc]
      simp [List.lookup, hb, hc, ih]

/-- The claim's fixed transaction-code enumeration. -/
def transactionCodeEnum : List String :=
  ["P", "S", "A", "D", "F", "I", "M", "C", "E", "H", "O", "X", "G", "W", "L", "Z"]

theorem transactionCodeEnum_eq_keys : transactionCodeEnum = code_map.map Prod.fst := by
  rfl

theorem extractForm4_type_eq (pf : String → Option ℚ) (root : Xml) :
    (extractForm4 pf root).Transaction_Type
      = ((extractForm4 pf root).Transaction_Code).map
          (fun c => (List.lookup c code_map).getD c) := by
  unfold extractForm4
  cases root.findDesc "nonDerivativeTransaction" <;> simp [computeForm4, emptyForm4]

theorem routeShares_excl (sh : Option ℚ) (ad : Option (Option (Option String)))
    (code : Option String) :
    (routeShares sh ad code).1 = none ∨ (routeShares sh ad code).2 = none := by
  rcases sh with _ | q
  · simp [routeShares]
  · rcases ad with _ | adv
    · rcases code with _ | c
      · simp [routeShares]
      · simp only [routeShares]
        split_ifs <;> simp
    · rcases adv with _ | txt
      · simp [routeShares]
      · simp only [routeShares]
        split_ifs <;> simp

theorem routeShares_acq_route {sh : Option ℚ} {ad : Option (Option (Option String))}
    {code : Option String} {q : ℚ} (h : (routeShares sh ad code).1 = some q) :
    ad = some (some (some "A"))
      ∨ (ad = none ∧ ∃ c, code = some c ∧ c ∈ acquisitionCodes) := by
  rcases sh with _ | q2
  · simp [routeShares] at h
  · rcases ad with _ | adv
    · rcases code with _ | c
      · simp [routeShares] at h
      · right
        refine ⟨rfl, c, rfl, ?_⟩
        by_cases hm : c ∈ acquisitionCodes
        · exact hm
        · exfalso
          by_cases hd : c ∈ dispositionCodes <;>
            simp [routeShares, hm, hd] at h
    · rcases adv with _ | txt
      · simp [routeShares] at h
      · left
        by_cases ha : txt = some "A"
        · rw [ha]
        · exfalso
          by_cases hd : txt = some "D" <;>
            simp [routeShares, ha, hd] at h

theorem routeShares_disp_route {sh : Option ℚ} {ad : Option (Option (Option String))}
    {code : Option String} {q : ℚ} (h : (routeShares sh ad code).2 = some q) :
    ad = some (some (some "D"))
      ∨ (ad = none ∧ ∃ c, code = some c ∧ c ∈ dispositionCodes) := by
  rcases sh with _ | q2
  · simp [routeShares] at h
  · rcases ad with _ | adv
    · rcases code with _ | c
      · simp [routeShares] at h
      · right
        refine ⟨rfl, c, rfl, ?_⟩
        by_cases hm : c ∈ dispositionCodes
        · exact hm
        · exfalso
          by_cases ha : c ∈ acquisitionCodes <;>
            simp [routeShares, ha, hm] at h
    · rcases adv with _ | txt
      · simp [routeShares] at h
      · left
        by_cases hd : txt = some "D"
        · rw [hd]
        · exfalso
          by_cases ha : txt = some "A" <;>
            simp [routeShares, ha, hd] at h

theorem computeForm4_acq (pf : String → Option ℚ) (v : TransView) :
    (computeForm4 pf v).Shares_Acquired
      = (routeShares (sharesNumOf pf v) v.ad v.code).1 := rfl

theorem computeForm4_disp (pf : String → Option ℚ) (v : TransView) :
    (computeForm4 pf v).Shares_Disposed
      = (routeShares (sharesNumOf pf v) v.ad v.code).2 := rfl

/-! ## Claim C5 -/

/-- C5: for every input text in which the literal marker `<XML>` or
`</XML>` is absent, `parse_form4` returns the record with all nine
fields absent (and, being a total function, raises nothing), for every
behaviour of the XML parser and of numeric parsing. -/
theorem c5_missing_markers (px : String → Option Xml) (pf : String → Option ℚ)
    (content : String)
    (h : hasSub content "<XML>" = false ∨ hasSub content "</XML>" = false) :
    parse_form4 px pf content = emptyForm4 := by
  unfold parse_form4
  rcases h with h | h
  · have h1 : strFind "<XML>".data content.data = none := by
      cases hf : strFind "<XML>".data content.data with
      | none => rfl
      | some i => simp [hasSub, hf] at h
    rw [h1]
  · have h1 : strFind "</XML>".data content.data = none := by
      cases hf : strFind "</XML>".data content.data with
      | none => rfl
      | some i => simp [hasSub, hf] at h
    rw [h1]
    cases strFind "<XML>".data content.data <;> rfl

/-- C5 witness: a document with no markers at all yields the
all-absent record. -/
theorem c5_witness :
    parse_form4 (fun _ => none) parseDec "plain text form, no embedded fragment"
      = emptyForm4 :=
  c5_missing_markers (fun _ => none) parseDec
    "plain text form, no embedded fragment" (Or.inl (by decide))

/-! ## Claim C4 -/

/-- C4: whenever a transaction code is extracted, the transaction type
is the `code_map` label for codes inside the fixed 16-code
enumeration, and the code itself verbatim for codes outside it. -/
theorem c4_transaction_type_mapping (pf : String → Option ℚ) (root : Xml) (c : String)
    (h : (extractForm4 pf root).Transaction_Code = some c) :
    (c ∈ transactionCodeEnum →
        ∃ l, List.lookup c code_map = some l
          ∧ (extractForm4 pf root).Transaction_Type = some l)
    ∧ (c ∉ transactionCodeEnum →
        (extractForm4 pf root).Transaction_Type = some c) := by
  have ht := extractForm4_type_eq pf root
  rw [h] at ht
  constructor
  · intro hmem
    have hs : (List.lookup c code_map).isSome :=
      lookupStr_isSome_iff.mpr (by rw [← transactionCodeEnum_eq_keys]; exact hmem)
    obtain ⟨l, hl⟩ := Option.isSome_iff_exists.mp hs
    exact ⟨l, hl, by simp [ht, hl]⟩
  · intro hmem
    have hs : ¬(List.lookup c code_map).isSome := fun hsome =>
      hmem (by rw [transactionCodeEnum_eq_keys]; exact lookupStr_isSome_iff.mp hsome)
    have hn : List.lookup c code_map = none := Option.not_isSome_iff_eq_none.mp hs
    simp [ht, hn]

/-- C4 witness: the concrete document with code `P` maps to the
`Purchase` label. -/
theorem c4_witness :
    (extractForm4 parseDec form4DocA).Transaction_Type = some "Purchase" := by
  have h := c4_transaction_type_mapping parseDec form4DocA "P" (by decide)
  obtain ⟨l, hl, ht⟩ := h.1 (by decide)
  have hcomp : List.lookup "P" code_map = some "Purchase" := by decide
  rw [hcomp] at hl
  cases hl
  exact ht

/-! ## Claim C3 -/

/-- C3: the extracted record never has both share fields populated,
and each populated side is justified either by the explicit
acquired/disposed indicator value (`A` resp. `D`) or, when the
indicator element is absent, by transaction-code membership in the
acquisition resp. disposition code list. -/
theorem c3_mutual_exclusion (pf : String → Option ℚ) :
    (∀ root : Xml,
        ¬(((extractForm4 pf root).Shares_Acquired).isSome
           ∧ ((extractForm4 pf root).Shares_Disposed).isSome))
    ∧ (∀ (v : TransView) (q : ℚ), (computeForm4 pf v).Shares_Acquired = some q →
        v.ad = some (some (some "A"))
          ∨ (v.ad = none ∧ ∃ c, v.code = some c ∧ c ∈ acquisitionCodes))
    ∧ (∀ (v : TransView) (q : ℚ), (computeForm4 pf v).Shares_Disposed = some q →
        v.ad = some (some (some "D"))
          ∨ (v.ad = none ∧ ∃ c, v.code = some c ∧ c ∈ dispositionCodes)) := by
  refine ⟨?_, ?_, ?_⟩
  · intro root
    unfold extractForm4
    cases root.findDesc "nonDerivativeTransaction" with
    | none => simp [emptyForm4]
    | some tr =>
      rintro ⟨h1, h2⟩
      rcases routeShares_excl (sharesNumOf pf (viewOf tr)) (viewOf tr).ad (viewOf tr).code with
        hn | hn
      · rw [computeForm4_acq, hn] at h1
        simp at h1
      · rw [computeForm4_disp, hn] at h2
        simp at h2
  · intro v q h
    rw [computeForm4_acq] at h
    exact routeShares_acq_route h
  · intro v q h
    rw [computeForm4_disp] at h
    exact routeShares_disp_route h

/-- C3 witness: the concrete code-`P` document populates only
`Shares_Acquired`, and the routing clause reports the fallback
justification. -/
theorem c3_witness :
    (¬(((extractForm4 parseDec form4DocA).Shares_Acquired).isSome
        ∧ ((extractForm4 parseDec form4DocA).Shares_Disposed).isSome))
    ∧ ((viewOf form4TransP).ad = some (some (some "A"))
        ∨ ((viewOf form4TransP).ad = none
            ∧ ∃ c, (viewOf form4TransP).code = some c ∧ c ∈ acquisitionCodes)) :=
  ⟨(c3_mutual_exclusion parseDec).1 form4DocA,
   (c3_mutual_exclusion parseDec).2.1 (viewOf form4TransP) 100 (by decide)⟩

/-! ## Claim C2 -/

/-- A transaction with an explicit `A` indicator, share count `0` and
price `1.5`: every operand of the total-value computation parses as a
number, yet Python truthiness (`if result['Shares_Acquired'] and ...`)
treats the share count `0.0` as false. -/
def form4TransZero : Xml :=
  .el "nonDerivativeTransaction" none
    [.el "transactionAmounts" none
      [.el "transactionShares" none [.el "value" (some "0") []],
       .el "transactionAcquiredDisposedCode" none [.el "value" (some "A") []],
       .el "transactionPricePerShare" none [.el "value" (some "1.5") []]]]

/-- A Form-4 XML root containing `form4TransZero`. -/
def form4DocZero : Xml := .el "ownershipDocument" none [form4TransZero]

/-- C2 counterexample: on `form4DocZero` the price parses as a number
and exactly one share field is populated with a number (`0`), yet
`Total_Value` is absent — the claimed if-and-only-if fails. -/
theorem c2_counterexample :
    (extractForm4 parseDec form4DocZero).Price_Per_Share = some "1.5"
    ∧ parseDec "1.5" = some (mkRat 3 2)
    ∧ (extractForm4 parseDec form4DocZero).Shares_Acquired = some 0
    ∧ (extractForm4 parseDec form4DocZero).Shares_Disposed = none
    ∧ (extractForm4 parseDec form4DocZero).Total_Value = none
    ∧ ¬(((extractForm4 parseDec form4DocZero).Total_Value).isSome ↔
        ((∃ ps p, (extractForm4 parseDec form4DocZero).Price_Per_Share = some ps
            ∧ parseDec ps = some p)
          ∧ ((((extractForm4 parseDec form4DocZero).Shares_Acquired).isSome
              ∧ (extractForm4 parseDec form4DocZero).Shares_Disposed = none)
            ∨ (((extractForm4 parseDec form4DocZero).Shares_Disposed).isSome
              ∧ (extractForm4 parseDec form4DocZero).Shares_Acquired = none)))) := by
  refine ⟨by decide, by decide, by decide, by decide, by decide, ?_⟩
  intro hiff
  have hs : ((extractForm4 parseDec form4DocZero).Total_Value).isSome :=
    hiff.mpr ⟨⟨"1.5", mkRat 3 2, by decide, by decide⟩, Or.inl ⟨by decide, by decide⟩⟩
  rw [show (extractForm4 parseDec form4DocZero).Total_Value = none from by decide] at hs
  simp at hs

theorem optTruthy_some {o : Option String} {s : String}
    (h : optTruthy o = some s) : s ≠ "" := by
  rcases o with _ | t
  · simp [optTruthy] at h
  · by_cases ht : t = ""
    · simp [optTruthy, ht] at h
    · simp [optTruthy, ht] at h
      rw [← h]
      exact ht

theorem computeForm4_price (pf : String → Option ℚ) (v : TransView) :
    (computeForm4 pf v).Price_Per_Share = optTruthy v.priceTxt := rfl

theorem computeForm4_total (pf : String → Option ℚ) (v : TransView) :
    (computeForm4 pf v).Total_Value
      = totalValueCalc pf (routeShares (sharesNumOf pf v) v.ad v.code).1
          (routeShares (sharesNumOf pf v) v.ad v.code).2 (optTruthy v.priceTxt) := rfl

theorem totalValueCalc_char (pf : String → Option ℚ) (A D : Option ℚ) (P : Option String)
    (hexcl : A = none ∨ D = none) (hP : ∀ s, P = some s → s ≠ "") :
    ((totalValueCalc pf A D P).isSome ↔
      ((∃ ps p, P = some ps ∧ pf ps = some p)
        ∧ ((∃ q, A = some q ∧ q ≠ 0) ∨ (∃ q, D = some q ∧ q ≠ 0))))
    ∧ (∀ t, totalValueCalc pf A D P = some t →
        ∃ ps p q, P = some ps ∧ pf ps = some p
          ∧ ((A = some q ∧ D = none) ∨ (D = some q ∧ A = none))
          ∧ t = q * p) := by
  rcases A with _ | qa
  · rcases D with _ | qd
    · constructor
      · simp [totalValueCalc, totalProduct, truthyQ]
      · intro t ht
        simp [totalValueCalc, totalProduct, truthyQ] at ht
    · rcases P with _ | ps
      · constructor
        · simp [totalValueCalc, totalProduct, truthyQ, truthyS]
        · intro t ht
          simp [totalValueCalc, totalProduct, truthyQ, truthyS] at ht
      · have hps : ps ≠ "" := hP ps rfl
        by_cases hq : qd = 0
        · subst hq
          constructor
          · simp [totalValueCalc, totalProduct, truthyQ, truthyS, hps]
          · intro t ht
            simp [totalValueCalc, totalProduct, truthyQ, truthyS, hps] at ht
        · cases hpf : pf ps with
          | none =>
            constructor
            · simp [totalValueCalc, totalProduct, truthyQ, truthyS, hps, hq, hpf]
            · intro t ht
              simp [totalValueCalc, totalProduct, truthyQ, truthyS, hps, hq, hpf] at ht
          | some p =>
            constructor
            · constructor
              · intro _
                exact ⟨⟨ps, p, rfl, hpf⟩, Or.inr ⟨qd, rfl, hq⟩⟩
              · intro _
                simp [totalValueCalc, totalProduct, truthyQ, truthyS, hps, hq, hpf]
            · intro t ht
              have hv : t = qd * p := by
                simp [totalValueCalc, totalProduct, truthyQ, truthyS, hps, hq, hpf] at ht
                exact ht.symm
              exact ⟨ps, p, qd, rfl, hpf, Or.inr ⟨rfl, rfl⟩, hv⟩
  · have hD : D = none := by
      rcases hexcl with h | h
      · exact absurd h (by simp)
      · exact h
    subst hD
    rcases P with _ | ps
    · constructor
      · simp [totalValueCalc, totalProduct, truthyQ, truthyS]
      · intro t ht
        simp [totalValueCalc, totalProduct, truthyQ, truthyS] at ht
    · have hps : ps ≠ "" := hP ps rfl
      by_cases hq : qa = 0
      · subst hq
        constructor
        · simp [totalValueCalc, totalProduct, truthyQ, truthyS, hps]
        · intro t ht
          simp [totalValueCalc, totalProduct, truthyQ, truthyS, hps] at ht
      · cases hpf : pf ps with
        | none =>
          constructor
          · simp [totalValueCalc, totalProduct, truthyQ, truthyS, hps, hq, hpf]
          · intro t ht
            simp [totalValueCalc, totalProduct, truthyQ, truthyS, hps, hq, hpf] at ht
        | some p =>
          constructor
          · constructor
            · intro _
              exact ⟨⟨ps, p, rfl, hpf⟩, Or.inl ⟨qa, rfl, hq⟩⟩
            · intro _
              simp [totalValueCalc, totalProduct, truthyQ, truthyS, hps, hq, hpf]
          · intro t ht
            have hv : t = qa * p := by
              simp [totalValueCalc, totalProduct, truthyQ, truthyS, hps, hq, hpf] at ht
              exact ht.symm
            exact ⟨ps, p, qa, rfl, hpf, Or.inl ⟨rfl, rfl⟩, hv⟩

/-- C2 amended: `Total_Value` is populated iff the stored price parses
as a number and exactly one of the share fields is populated with a
nonzero count (Python truthiness makes a zero share count suppress the
computation); when populated it equals the product of that single
share count and the price, never drawing on both share fields. -/
theorem c2_amended_thm (pf : String → Option ℚ) (root : Xml) :
    (((extractForm4 pf root).Total_Value).isSome ↔
      ((∃ ps p, (extractForm4 pf root).Price_Per_Share = some ps ∧ pf ps = some p)
        ∧ ((∃ q, (extractForm4 pf root).Shares_Acquired = some q ∧ q ≠ 0)
          ∨ (∃ q, (extractForm4 pf root).Shares_Disposed = some q ∧ q ≠ 0))))
    ∧ (∀ t, (extractForm4 pf root).Total_Value = some t →
        ∃ ps p q, (extractForm4 pf root).Price_Per_Share = some ps ∧ pf ps = some p
          ∧ (((extractForm4 pf root).Shares_Acquired = some q
              ∧ (extractForm4 pf root).Shares_Disposed = none)
            ∨ ((extractForm4 pf root).Shares_Disposed = some q
              ∧ (extractForm4 pf root).Shares_Acquired = none))
          ∧ t = q * p) := by
  unfold extractForm4
  cases root.findDesc "nonDerivativeTransaction" with
  | none =>
    constructor
    · simp [emptyForm4]
    · intro t ht
      simp [emptyForm4] at ht
  | some tr =>
    exact totalValueCalc_char pf _ _ _
      (routeShares_excl (sharesNumOf pf (viewOf tr)) (viewOf tr).ad (viewOf tr).code)
      (fun s hs => optTruthy_some hs)

/-- C2 witness: on the concrete 100-share price-2 document the amended
rule reports `Total_Value` as populated. -/
theorem c2_witness : ((extractForm4 parseDec form4DocA).Total_Value).isSome :=
  (c2_amended_thm parseDec form4DocA).1.mpr
    ⟨⟨"2", mkRat 2 1, by decide, by decide⟩, Or.inl ⟨100, by decide, by decide⟩⟩

/-! ## Claim C7 -/

/-- When the explicit acquired/disposed indicator element is present,
share routing never consults the transaction code. -/
theorem routeShares_code_irrel (sh : Option ℚ) (a : Option (Option String))
    (c1 c2 : Option String) :
    routeShares sh (some a) c1 = routeShares sh (some a) c2 := by
  cases sh <;> rcases a with _ | txt <;> simp [routeShares]

/-- C7 counterexample: two transactions that differ only in the
`transactionCode` sub-element being absent from the second.  With no
explicit acquired/disposed indicator, share routing falls back on the
transaction code, so `Shares_Acquired` and `Total_Value` — fields
other than the code itself — change as well. -/
theorem c7_counterexample :
    (extractForm4 parseDec form4DocA).Shares_Acquired = some 100
    ∧ (computeForm4 parseDec (viewOf form4TransP)).Shares_Acquired = some 100
    ∧ (computeForm4 parseDec { viewOf form4TransP with code := none }).Shares_Acquired
        = none
    ∧ (computeForm4 parseDec (viewOf form4TransP)).Total_Value = some 200
    ∧ (computeForm4 parseDec { viewOf form4TransP with code := none }).Total_Value
        = none := by
  refine ⟨by decide, by decide, by decide, ?_, by decide⟩
  with_unfolding_all decide

/-- C7 amended: field extraction is independent for the fields with no
data-flow dependency.  Dropping the `transactionDate`, `securityTitle`
or `postTransactionAmounts` sub-element changes exactly the one
corresponding field; dropping `transactionCode` leaves the date,
price, security-name and post-transaction fields intact, and when the
explicit acquired/disposed indicator element is present it leaves the
share routing and total value intact as well; dropping the price or
share sub-element leaves every field other than the price/share/total
group intact. -/
theorem c7_amended_thm (pf : String → Option ℚ) (v : TransView) :
    (computeForm4 pf { v with dateTxt := none }
      = { computeForm4 pf v with Transaction_Date := none })
    ∧ (computeForm4 pf { v with secTxt := none }
      = { computeForm4 pf v with Security_Name := none })
    ∧ (computeForm4 pf { v with postTxt := none }
      = { computeForm4 pf v with Shares_Owned_Following := none })
    ∧ ((computeForm4 pf { v with code := none }).Transaction_Date
        = (computeForm4 pf v).Transaction_Date
      ∧ (computeForm4 pf { v with code := none }).Price_Per_Share
        = (computeForm4 pf v).Price_Per_Share
      ∧ (computeForm4 pf { v with code := none }).Security_Name
        = (computeForm4 pf v).Security_Name
      ∧ (computeForm4 pf { v with code := none }).Shares_Owned_Following
        = (computeForm4 pf v).Shares_Owned_Following)
    ∧ (∀ a, v.ad = some a →
        (computeForm4 pf { v with code := none }).Shares_Acquired
          = (computeForm4 pf v).Shares_Acquired
        ∧ (computeForm4 pf { v with code := none }).Shares_Disposed
          = (computeForm4 pf v).Shares_Disposed
        ∧ (computeForm4 pf { v with code := none }).Total_Value
          = (computeForm4 pf v).Total_Value)
    ∧ ((computeForm4 pf { v with priceTxt := none }).Transaction_Code
        = (computeForm4 pf v).Transaction_Code
      ∧ (computeForm4 pf { v with priceTxt := none }).Transaction_Type
        = (computeForm4 pf v).Transaction_Type
      ∧ (computeForm4 pf { v with priceTxt := none }).Transaction_Date
        = (computeForm4 pf v).Transaction_Date
      ∧ (computeForm4 pf { v with priceTxt := none }).Shares_Acquired
        = (computeForm4 pf v).Shares_Acquired
      ∧ (computeForm4 pf { v with priceTxt := none }).Shares_Disposed
        = (computeForm4 pf v).Shares_Disposed
      ∧ (computeForm4 pf { v with priceTxt := none }).Security_Name
        = (computeForm4 pf v).Security_Name
      ∧ (computeForm4 pf { v with priceTxt := none }).Shares_Owned_Following
        = (computeForm4 pf v).Shares_Owned_Following)
    ∧ ((computeForm4 pf { v with sharesTxt := none }).Transaction_Code
        = (computeForm4 pf v).Transaction_Code
      ∧ (computeForm4 pf { v with sharesTxt := none }).Transaction_Type
        = (computeForm4 pf v).Transaction_Type
      ∧ (computeForm4 pf { v with sharesTxt := none }).Transaction_Date
        = (computeForm4 pf v).Transaction_Date
      ∧ (computeForm4 pf { v with sharesTxt := none }).Price_Per_Share
        = (computeForm4 pf v).Price_Per_Share
      ∧ (computeForm4 pf { v with sharesTxt := none }).Security_Name
        = (computeForm4 pf v).Security_Name
      ∧ (computeForm4 pf { v with sharesTxt := none }).Shares_Owned_Following
        = (computeForm4 pf v).Shares_Owned_Following) := by
  refine ⟨rfl, rfl, rfl, ⟨rfl, rfl, rfl, rfl⟩, ?_, ⟨rfl, rfl, rfl, rfl, rfl, rfl, rfl⟩,
    ⟨rfl, rfl, rfl, rfl, rfl, rfl⟩⟩
  intro a ha
  refine ⟨?_, ?_, ?_⟩
  · show (routeShares (sharesNumOf pf v) v.ad none).1
      = (routeShares (sharesNumOf pf v) v.ad v.code).1
    rw [ha]
    exact congrArg Prod.fst (routeShares_code_irrel (sharesNumOf pf v) a none v.code)
  · show (routeShares (sharesNumOf pf v) v.ad none).2
      = (routeShares (sharesNumOf pf v) v.ad v.code).2
    rw [ha]
    exact congrArg Prod.snd (routeShares_code_irrel (sharesNumOf pf v) a none v.code)
  · show totalValueCalc pf (routeShares (sharesNumOf pf v) v.ad none).1
        (routeShares (sharesNumOf pf v) v.ad none).2 (optTruthy v.priceTxt)
      = totalValueCalc pf (routeShares (sharesNumOf pf v) v.ad v.code).1
        (routeShares (sharesNumOf pf v) v.ad v.code).2 (optTruthy v.priceTxt)
    rw [ha, routeShares_code_irrel (sharesNumOf pf v) a none v.code]

/-- C7 witness: on the indicator-carrying document, deleting the
transaction code leaves the share fields unchanged, by the amended
independence theorem. -/
theorem c7_witness :
    (computeForm4 parseDec { viewOf form4TransZero with code := none }).Shares_Acquired
      = (computeForm4 parseDec (viewOf form4TransZero)).Shares_Acquired := by
  obtain ⟨h1, h2, h3, h4, h5, h6, h7⟩ := c7_amended_thm parseDec (viewOf form4TransZero)
  exact (h5 (some (some "A")) (by decide)).1

/-! ## Claims C1 and C9 -/

/-- Reduction of one row-loop iteration once the guards pass: at least
two cells and a parsed leading row number. -/
theorem processRow_eq (r : OwnershipRecord) (cells : List Cell)
    (hnl : ¬(cells.length < 2)) {n : Nat}
    (hn : rowNumOf (pyStrip (firstCellText cells)) = some n) :
    processRow r cells
      = processNumberedRow r n (rowTextOf cells) (pyStrip (lastCellText cells)) := by
  unfold processRow
  rw [if_neg hnl, hn]

/-- C1: a row numbered 9 routes its last cell by label text alone —
with the `Sole Dispositive Power` label the (comma-stripped leading
number of the) value lands in `Sole_Dispositive_Power` and
`Shares_Owned` is untouched; with only the `Aggregate Amount
Beneficially Owned` label it lands in `Shares_Owned` and the
dispositive field is untouched; with neither label the record is
unchanged.  The quoted example value `1,234,567 (1)` normalises to
`1234567`. -/
theorem c1_row9_label_routing (r : OwnershipRecord) (cells : List Cell)
    (hlen : 2 ≤ cells.length)
    (h9 : rowNumOf (pyStrip (firstCellText cells)) = some 9) :
    (hasSub (rowTextOf cells) "Sole Dispositive Power" = true →
      processRow r cells
        = { r with Sole_Dispositive_Power := updField r.Sole_Dispositive_Power (extract_leading_number (pyStrip (lastCellText cells))) })
    ∧ (hasSub (rowTextOf cells) "Sole Dispositive Power" = false →
       hasSub (rowTextOf cells) "Aggregate Amount Beneficially Owned" = true →
      processRow r cells
        = { r with Shares_Owned := updField r.Shares_Owned (extract_leading_number (pyStrip (lastCellText cells))) })
    ∧ (hasSub (rowTextOf cells) "Sole Dispositive Power" = false →
       hasSub (rowTextOf cells) "Aggregate Amount Beneficially Owned" = false →
      processRow r cells = r)
    ∧ extract_leading_number "1,234,567 (1)" = some "1234567" := by
  have hred := processRow_eq r cells (by omega) h9
  refine ⟨?_, ?_, ?_, by decide⟩
  · intro hsdp
    rw [hred]
    unfold processNumberedRow
    rw [if_neg (by simp), if_neg (by simp), if_pos rfl, if_pos hsdp]
  · intro hsdp haabo
    rw [hred]
    unfold processNumberedRow
    rw [if_neg (by simp), if_neg (by simp), if_pos rfl, if_neg (by simp [hsdp]),
      if_pos haabo]
  · intro hsdp haabo
    rw [hred]
    unfold processNumberedRow
    rw [if_neg (by simp), if_neg (by simp), if_pos rfl, if_neg (by simp [hsdp]),
      if_neg (by simp [haabo])]

/-- A concrete row 9 carrying the dispositive-power label. -/
def c1cells : List Cell :=
  [⟨"9."⟩, ⟨"Sole Dispositive Power"⟩, ⟨"1,234,567 (1)"⟩]

/-- C1 witness: the concrete dispositive-power row populates
`Sole_Dispositive_Power` with the normalised number and leaves
`Shares_Owned` absent. -/
theorem c1_witness :
    (processRow emptyOwnership c1cells).Sole_Dispositive_Power = some "1234567"
    ∧ (processRow emptyOwnership c1cells).Shares_Owned = none := by
  have h := c1_row9_label_routing emptyOwnership c1cells (by decide) (by decide)
  have he := h.1 (by decide)
  constructor
  · rw [he]
    decide
  · rw [he]
    decide

/-- C9: a voting/dispositive-power cell whose stripped value text is
the literal placeholder `-0-` yields the field value `"0"` (not
absent), for each of the four power rows; the placeholder is rewritten
to `0` before the leading digit run is taken. -/
theorem c9_zero_placeholder (r : OwnershipRecord) (cells : List Cell)
    (hlen : 2 ≤ cells.length)
    (hvt : pyStrip (lastCellText cells) = "-0-") :
    extract_leading_number "-0-" = some "0"
    ∧ (rowNumOf (pyStrip (firstCellText cells)) = some 7 →
        hasSub (rowTextOf cells) "Sole Voting Power" = true →
        (processRow r cells).Sole_Voting_Power = some "0")
    ∧ (rowNumOf (pyStrip (firstCellText cells)) = some 8 →
        hasSub (rowTextOf cells) "Shared Voting Power" = true →
        (processRow r cells).Shared_Voting_Power = some "0")
    ∧ (rowNumOf (pyStrip (firstCellText cells)) = some 9 →
        hasSub (rowTextOf cells) "Sole Dispositive Power" = true →
        (processRow r cells).Sole_Dispositive_Power = some "0")
    ∧ (rowNumOf (pyStrip (firstCellText cells)) = some 10 →
        hasSub (rowTextOf cells) "Shared Dispositive Power" = true →
        (processRow r cells).Shared_Dispositive_Power = some "0") := by
  have hz : extract_leading_number "-0-" = some "0" := by decide
  refine ⟨hz, ?_, ?_, ?_, ?_⟩
  · intro hn hlab
    rw [processRow_eq r cells (by omega) hn]
    unfold processNumberedRow
    rw [if_pos ⟨rfl, hlab⟩, hvt]
    simp [updField, hz]
  · intro hn hlab
    rw [processRow_eq r cells (by omega) hn]
    unfold processNumberedRow
    rw [if_neg (by simp), if_pos ⟨rfl, hlab⟩, hvt]
    simp [updField, hz]
  · intro hn hlab
    rw [processRow_eq r cells (by omega) hn]
    unfold processNumberedRow
    rw [if_neg (by simp), if_neg (by simp), if_pos rfl, if_pos hlab, hvt]
    simp [updField, hz]
  · intro hn hlab
    rw [processRow_eq r cells (by omega) hn]
    unfold processNumberedRow
    rw [if_neg (by simp), if_neg (by simp), if_neg (by simp), if_pos ⟨rfl, hlab⟩, hvt]
    simp [updField, hz]

/-- A concrete row 7 with the `-0-` placeholder value. -/
def c9cells : List Cell := [⟨"7."⟩, ⟨"Sole Voting Power"⟩, ⟨"-0-"⟩]

/-- C9 witness: the concrete placeholder row yields `"0"`. -/
theorem c9_witness : (processRow emptyOwnership c9cells).Sole_Voting_Power = some "0" := by
  have h := c9_zero_placeholder emptyOwnership c9cells (by decide) (by decide)
  exact h.2.1 (by decide) (by decide)

/-! ## Claim C10 -/

/-- A numbered-row step either leaves `Type_of_Reporting_Person`
unchanged, or the row is a row 12 carrying the `Type of Reporting
Person` label whose last-cell code extraction succeeded. -/
theorem processNumberedRow_type (r : OwnershipRecord) (n : Nat) (rt vt : String) :
    (processNumberedRow r n rt vt).Type_of_Reporting_Person = r.Type_of_Reporting_Person
    ∨ (n = 12 ∧ hasSub rt "Type of Reporting Person" = true
        ∧ (processNumberedRow r n rt vt).Type_of_Reporting_Person
            = extract_reporting_type vt
        ∧ (extract_reporting_type vt).isSome) := by
  by_cases h12 : n = 12 ∧ hasSub rt "Type of Reporting Person" = true
  · obtain ⟨hn, hlab⟩ := h12
    subst hn
    unfold processNumberedRow
    rw [if_neg (by simp), if_neg (by simp), if_neg (by simp), if_neg (by simp),
      if_neg (by simp), if_neg (by simp), if_neg (by simp), if_pos ⟨rfl, hlab⟩]
    cases hx : extract_reporting_type vt with
    | none => exact Or.inl (by simp [updField, hx])
    | some w => exact Or.inr ⟨rfl, hlab, by simp [updField, hx], by simp [hx]⟩
  · left
    unfold processNumberedRow
    split_ifs <;> rfl

/-- A row-loop step either leaves `Type_of_Reporting_Person` unchanged
or the row qualifies: two or more cells, leading row number 12, the
label in the row text, and a successful code extraction. -/
theorem processRow_type (r : OwnershipRecord) (cells : List Cell) :
    (processRow r cells).Type_of_Reporting_Person = r.Type_of_Reporting_Person
    ∨ (2 ≤ cells.length
        ∧ rowNumOf (pyStrip (firstCellText cells)) = some 12
        ∧ hasSub (rowTextOf cells) "Type of Reporting Person" = true
        ∧ (processRow r cells).Type_of_Reporting_Person
            = extract_reporting_type (pyStrip (lastCellText cells))
        ∧ (extract_reporting_type (pyStrip (lastCellText cells))).isSome) := by
  by_cases hlen : cells.length < 2
  · left
    unfold processRow
    rw [if_pos hlen]
  · cases hn : rowNumOf (pyStrip (firstCellText cells)) with
    | none =>
      left
      unfold processRow
      rw [if_neg hlen, hn]
    | some n =>
      have hred := processRow_eq r cells hlen hn
      rw [hred]
      rcases processNumberedRow_type r n (rowTextOf cells) (pyStrip (lastCellText cells))
        with h | ⟨h12, hlab, heq, hsome⟩
      · exact Or.inl h
      · subst h12
        exact Or.inr ⟨by omega, rfl, hlab, heq, hsome⟩

/-- Folding the row loop over a table: a populated
`Type_of_Reporting_Person` traces back to the seed or to a qualifying
row of the table. -/
theorem foldl_rows_type (rows : List (List Cell)) (r : OwnershipRecord) (v : String)
    (h : (rows.foldl processRow r).Type_of_Reporting_Person = some v) :
    r.Type_of_Reporting_Person = some v
    ∨ ∃ cells, cells ∈ rows ∧ 2 ≤ cells.length
        ∧ rowNumOf (pyStrip (firstCellText cells)) = some 12
        ∧ hasSub (rowTextOf cells) "Type of Reporting Person" = true
        ∧ extract_reporting_type (pyStrip (lastCellText cells)) = some v := by
  induction rows generalizing r with
  | nil => exact Or.inl h
  | cons cells rest ih =>
    simp only [List.foldl_cons] at h
    rcases ih (processRow r cells) h with h1 | ⟨cs, hmem, hrest⟩
    · rcases processRow_type r cells with h2 | ⟨hl2, h12, hlab, heq, hsome⟩
      · rw [h2] at h1
        exact Or.inl h1
      · right
        refine ⟨cells, List.mem_cons_self _ _, hl2, h12, hlab, ?_⟩
        rw [← heq]
        exact h1
    · exact Or.inr ⟨cs, List.mem_cons_of_mem _ hmem, hrest⟩

/-- Folding over all tables: same tracing, one table level up. -/
theorem foldl_tables_type (tables : List (List (List Cell))) (r : OwnershipRecord)
    (v : String)
    (h : (tables.foldl (fun acc tbl => tbl.foldl processRow acc)
        r).Type_of_Reporting_Person = some v) :
    r.Type_of_Reporting_Person = some v
    ∨ ∃ tbl, tbl ∈ tables ∧ ∃ cells, cells ∈ tbl ∧ 2 ≤ cells.length
        ∧ rowNumOf (pyStrip (firstCellText cells)) = some 12
        ∧ hasSub (rowTextOf cells) "Type of Reporting Person" = true
        ∧ extract_reporting_type (pyStrip (lastCellText cells)) = some v := by
  induction tables generalizing r with
  | nil => exact Or.inl h
  | cons tbl rest ih =>
    simp only [List.foldl_cons] at h
    rcases ih (tbl.foldl processRow r) h with h1 | ⟨t2, hmem2, hex⟩
    · rcases foldl_rows_type tbl r v h1 with h2 | ⟨cs, hmem, hrest⟩
      · exact Or.inl h2
      · exact Or.inr ⟨tbl, List.mem_cons_self _ _, cs, hmem, hrest⟩
    · exact Or.inr ⟨t2, List.mem_cons_of_mem _ hmem2, hex⟩

/-- C10: `Type_of_Reporting_Person` is populated only from a table row
with at least two cells whose stripped first cell parses to row number
12 and whose row text contains `Type of Reporting Person`, the value
being the first 2–3-letter uppercase token of the stripped last cell;
in particular — there being no whole-document fallback for this field
— a document without such a table row (whatever its flat text says)
leaves the field absent. -/
theorem c10_reporting_person_row_only (doc : Html13Doc) (v : String)
    (h : (parse_13g_13d doc).Type_of_Reporting_Person = some v) :
    ∃ tbl, tbl ∈ doc.tables ∧ ∃ cells, cells ∈ tbl ∧ 2 ≤ cells.length
      ∧ rowNumOf (pyStrip (firstCellText cells)) = some 12
      ∧ hasSub (rowTextOf cells) "Type of Reporting Person" = true
      ∧ extract_reporting_type (pyStrip (lastCellText cells)) = some v := by
  have hfold : ((doc.tables.foldl (fun acc tbl => List.foldl processRow acc tbl)
      { emptyOwnership with
          CUSIP := doc.scan.cusip,
          Security_Name := doc.scan.secName }).Type_of_Reporting_Person) = some v := by
    simp only [parse_13g_13d] at h
    split_ifs at h <;> simpa using h
  rcases foldl_tables_type doc.tables _ v hfold with h1 | hex
  · simp [emptyOwnership] at h1
  · exact hex

/-- A document whose only table holds a qualifying row 12. -/
def c10doc : Html13Doc :=
  ⟨[[[⟨"12."⟩, ⟨"Type of Reporting Person"⟩, ⟨"IN"⟩]]], ⟨none, none, none, none⟩⟩

/-- C10 witness: the populated field on `c10doc` traces back to its
row 12. -/
theorem c10_witness :
    ∃ tbl, tbl ∈ c10doc.tables ∧ ∃ cells, cells ∈ tbl ∧ 2 ≤ cells.length
      ∧ rowNumOf (pyStrip (firstCellText cells)) = some 12
      ∧ hasSub (rowTextOf cells) "Type of Reporting Person" = true
      ∧ extract_reporting_type (pyStrip (lastCellText cells)) = some "IN" :=
  c10_reporting_person_row_only c10doc "IN" (by decide)

/-! ## Claim C6 -/

theorem pctFinish_pct_mem {tok rest : List Char} {t : String}
    (h : pctFinish tok rest = some t) : '%' ∈ rest := by
  unfold pctFinish at h
  split at h
  · rename_i tl heq
    exact mem_of_mem_dropWhile (by rw [heq]; exact List.mem_cons_self _ _)
  · simp at h

theorem pctTokAt_pct_mem {cs : List Char} {t : String}
    (h : pctTokAt cs = some t) : '%' ∈ cs := by
  unfold pctTokAt at h
  split at h
  · simp at h
  · rename_i rs heq hne
    have h1 : '%' ∈ rs.dropWhile Char.isDigit := pctFinish_pct_mem h
    have h2 : '%' ∈ ('.' :: rs) := List.mem_cons_of_mem _ (mem_of_mem_dropWhile h1)
    rw [← heq] at h2
    exact mem_of_mem_dropWhile h2
  · have h1 : '%' ∈ cs.dropWhile Char.isDigit := pctFinish_pct_mem h
    exact mem_of_mem_dropWhile h1

theorem pctSearch_some {cs : List Char} {t : String} (h : pctSearch cs = some t) :
    ∃ i, pctTokAt (cs.drop i) = some t
      ∧ ∀ j, j < i → pctTokAt (cs.drop j) = none := by
  induction cs with
  | nil => simp [pctSearch] at h
  | cons c rest ih =>
    unfold pctSearch at h
    cases hx : pctTokAt (c :: rest) with
    | some t2 =>
      rw [hx] at h
      have ht : t2 = t := Option.some.inj h
      subst ht
      exact ⟨0, by simpa using hx, fun j hj => absurd hj (by omega)⟩
    | none =>
      rw [hx] at h
      obtain ⟨i, hi, hj⟩ := ih h
      refine ⟨i + 1, by simpa [List.drop_succ_cons] using hi, ?_⟩
      intro j hjlt
      cases j with
      | zero => simpa using hx
      | succ k => simpa [List.drop_succ_cons] using hj k (by omega)

theorem pctSearch_none {cs : List Char} (h : pctSearch cs = none) :
    ∀ i, pctTokAt (cs.drop i) = none := by
  induction cs with
  | nil =>
    intro i
    rw [List.drop_nil]
    rfl
  | cons c rest ih =>
    intro i
    unfold pctSearch at h
    cases hx : pctTokAt (c :: rest) with
    | some t2 =>
      rw [hx] at h
      simp at h
    | none =>
      rw [hx] at h
      cases i with
      | zero => simpa using hx
      | succ k => simpa [List.drop_succ_cons] using ih h k

def pctFinishImmediate (tok rest : List Char) : Option String :=
  match rest with
  | '%' :: _ => some (String.mk tok)
  | _ => none

def pctTokAtImmediate (cs : List Char) : Option String :=
  match cs.takeWhile Char.isDigit, cs.dropWhile Char.isDigit with
  | [], _ => none
  | d1, '.' :: rs =>
    pctFinishImmediate (d1 ++ '.' :: rs.takeWhile Char.isDigit) (rs.dropWhile Char.isDigit)
  | d1, r1 => pctFinishImmediate d1 r1

def pctSearchImmediate : List Char → Option String
  | [] => none
  | c :: rest =>
    match pctTokAtImmediate (c :: rest) with
    | some t => some t
    | none => pctSearchImmediate rest

/-- The claim as stated: the first digits[.digits] token IMMEDIATELY
followed by a percent sign (no intervening characters).  This is the
spec's reading, to be compared with the source's `extract_percentage`,
whose regex `(\d+\.?\d*)\s*%` tolerates whitespace before `%`. -/
def specPctImmediate (s : String) : Option String :=
  pctSearchImmediate s.data

/-- C6 counterexample: on the input `12 %` no token is immediately
followed by a percent sign, so the claim requires an absent result,
but the extractor returns `12`. -/
theorem c6_counterexample :
    extract_percentage "12 %" = some "12"
    ∧ specPctImmediate "12 %" = none
    ∧ extract_percentage "12 %" ≠ specPctImmediate "12 %" := by decide

/-- C6 amended: the percent sign is still mandatory — an input with no
`%` yields an absent result, so a bare number never populates the
field through this extractor — but whitespace may separate the number
token from the percent sign: the result is exactly the token of the
leftmost position at which `digits[.digits]`, optional whitespace and
`%` match, and is absent iff no position matches. -/
theorem c6_amended_thm (s : String) :
    ((∀ c, c ∈ s.data → c ≠ '%') → extract_percentage s = none)
    ∧ (∀ t, extract_percentage s = some t →
        ∃ i, pctTokAt (s.data.drop i) = some t
          ∧ ∀ j, j < i → pctTokAt (s.data.drop j) = none)
    ∧ (extract_percentage s = none → ∀ i, pctTokAt (s.data.drop i) = none) := by
  refine ⟨?_, ?_, ?_⟩
  · intro hnp
    cases he : extract_percentage s with
    | none => rfl
    | some t =>
      exfalso
      obtain ⟨i, hi, _⟩ := pctSearch_some he
      exact hnp '%' (mem_of_mem_drop i (pctTokAt_pct_mem hi)) rfl
  · intro t ht
    exact pctSearch_some ht
  · intro hn i
    exact pctSearch_none hn i

/-- C6 witness: a percent-free input yields absent, and `6.1%` is the
leftmost match on its input. -/
theorem c6_witness :
    extract_percentage "only bare numbers 55" = none
    ∧ ∃ i, pctTokAt ("6.1%".data.drop i) = some "6.1"
        ∧ ∀ j, j < i → pctTokAt ("6.1%".data.drop j) = none :=
  ⟨(c6_amended_thm "only bare numbers 55").1 (by decide),
   (c6_amended_thm "6.1%").2.1 "6.1" (by decide)⟩

/-! ## Claim C8 -/

/-- C8: a form type that is neither `4` nor in the enumerated 13D/13G
set leaves the destination row exactly as it was: no extractor output
is merged. -/
theorem c8_dispatch_noop (px : String → Option Xml) (pf : String → Option ℚ)
    (soup : String → Html13Doc) (cols : List String) (formType content : String)
    (row : String → Option ColVal)
    (h4 : formType ≠ "4") (h13 : formType ∉ form13Types) :
    dispatchStep px pf soup cols formType content row = row := by
  unfold dispatchStep
  rw [if_neg h4, if_neg h13]

/-- C8 witness: the form type `10-K` is a no-op on a concrete row. -/
theorem c8_witness :
    dispatchStep (fun _ => none) parseDec (fun _ => ⟨[], ⟨none, none, none, none⟩⟩)
      ["Transaction_Code"] "10-K" "" (fun _ => none) = (fun _ => none) :=
  c8_dispatch_noop _ _ _ _ _ _ _ (by decide) (by decide)
